import Mathlib

/-!
Verification development for the CoDude application (codude.py, llm_client.py,
config.py).  Python strings are embedded as lists of characters; the string
operations that the code relies on (strip, split, startswith, membership) are
embedded as executable functions over those lists, restricted to the ASCII
whitespace characters the recipes files use.  Stateful operations (file
rewrites, the recently-used deque, favorites, memory entries) are embedded as
pure state-passing functions, with file-system side effects made explicit as
event traces.
-/

namespace CoDude

/-- Python strings, embedded as lists of characters. -/
abbrev Str := List Char

/-- Coerce a Lean string literal into the embedding. -/
def chars (s : String) : Str := s.data

/-- ASCII whitespace, as recognised by Python str.strip and str.split with no
arguments. -/
def pyIsSpace (c : Char) : Bool :=
  c = ' ' || c = '\t' || c = '\n' || c = '\r' || c = '\x0b' || c = '\x0c'

/-- Remove characters satisfying a predicate from the left end (Python lstrip). -/
def lstripWith (p : Char → Bool) (s : Str) : Str := s.dropWhile p

/-- Remove characters satisfying a predicate from the right end (Python rstrip). -/
def rstripWith (p : Char → Bool) (s : Str) : Str :=
  (s.reverse.dropWhile p).reverse

/-- Remove characters satisfying a predicate from both ends (Python strip with
a character set). -/
def pyStripWith (p : Char → Bool) (s : Str) : Str :=
  rstripWith p (lstripWith p s)

/-- Python str.strip() with no arguments: remove whitespace from both ends. -/
def pyStrip (s : Str) : Str := pyStripWith pyIsSpace s

/-- Python strip with the character set made of stars, as in strip applied to
the two-star string in codude.py. -/
def stripStars (s : Str) : Str := pyStripWith (fun c => c = '*') s

/-- Python membership test (sep in s) for a single character. -/
def pyContains (sep : Char) : Str → Bool
  | [] => false
  | c :: rest => if c = sep then true else pyContains sep rest

/-- Python s.startswith(p). -/
def pyStartsWith : Str → Str → Bool
  | [], _ => true
  | _ :: _, [] => false
  | p :: ps, c :: cs => if c = p then pyStartsWith ps cs else false

/-- Python s.split(sep, 1): split at the first occurrence of sep, returning
the parts before and after it; none when sep does not occur (in which case
Python would return a single part and tuple unpacking would raise). -/
def splitOnce (sep : Char) : Str → Option (Str × Str)
  | [] => none
  | c :: rest =>
    if c = sep then some ([], rest)
    else
      match splitOnce sep rest with
      | some (a, b) => some (c :: a, b)
      | none => none

/-- Helper for Python str.split() with no arguments: accumulate the current
token while scanning. -/
def splitWsGo : Str → Str → List Str
  | [], acc => if acc = [] then [] else [acc.reverse]
  | c :: rest, acc =>
    if pyIsSpace c then
      if acc = [] then splitWsGo rest [] else acc.reverse :: splitWsGo rest []
    else
      splitWsGo rest (c :: acc)

/-- Python str.split() with no arguments: whitespace-separated tokens, empty
tokens discarded. -/
def splitWs (s : Str) : List Str := splitWsGo s []

/-- Python single-space join of a list of tokens. -/
def joinSpace : List Str → Str
  | [] => []
  | [t] => t
  | t :: ts => t ++ ' ' :: joinSpace ts

/-- normalize_whitespace_for_comparison from codude.py: collapse every
whitespace run to a single space and strip the ends. -/
def normWs (s : Str) : Str := pyStrip (joinSpace (splitWs s))

/-! ## Recipes file parsing (_parse_recipes_file_to_structure, codude.py) -/

/-- A node of the parsed recipes structure: a group heading or a recipe, as
built by _parse_recipes_file_to_structure. -/
inductive RNode where
  | group : Str → Nat → RNode
  | recipe : Str → Str → Option Str → Nat → RNode
deriving DecidableEq

/-- The per-line loop of _parse_recipes_file_to_structure: strip the line,
skip blank lines, record group headings, parse recipe lines of the starred
form, and silently skip everything malformed. -/
def parseRecipeLines : List (Nat × Str) → Option Str → List RNode
  | [], _ => []
  | (lineNum, lineContent) :: rest, currentGroup =>
    let line := pyStrip lineContent
    if line = [] then parseRecipeLines rest currentGroup
    else if line.head? = some '#' then
      let title := pyStrip (lstripWith (fun c => c = '#') line)
      RNode.group title lineNum :: parseRecipeLines rest (some title)
    else if pyStartsWith (chars "**") line && pyContains ':' line then
      match splitOnce ':' line with
      | some (namePart, promptPart) =>
        let name := pyStrip (stripStars (pyStrip namePart))
        let promptFromFile := pyStrip promptPart
        if name ≠ [] ∧ promptFromFile ≠ [] then
          RNode.recipe name promptFromFile currentGroup lineNum
            :: parseRecipeLines rest currentGroup
        else parseRecipeLines rest currentGroup
      | none => parseRecipeLines rest currentGroup
    else parseRecipeLines rest currentGroup

/-- _parse_recipes_file_to_structure: a missing file or a read error yields the
empty structure; otherwise the lines are processed in order with their
zero-based line numbers. -/
def parseRecipesFileToStructure (file : Option (Except Str (List Str))) : List RNode :=
  match file with
  | none => []
  | some (Except.error _) => []
  | some (Except.ok lines) => parseRecipeLines lines.enum none

/-- Well-formedness of a parsed node: recipe nodes carry a non-empty name and
a non-empty prompt. -/
def rnodeWellFormed : RNode → Prop
  | RNode.group _ _ => True
  | RNode.recipe name prompt _ _ => name ≠ [] ∧ prompt ≠ []

instance (n : RNode) : Decidable (rnodeWellFormed n) := by
  cases n <;> simp [rnodeWellFormed] <;> infer_instance

/-! ## Recipe editing (_update_recipe_in_file, _remove_recipe_from_file) -/

/-- The matching test of _update_recipe_in_file and _remove_recipe_from_file:
a line matches the sought identity when its stripped content is recipe-shaped
and its parsed name and prompt, whitespace-normalized, equal the normalized
search keys. -/
def recipeLineMatches (normOldName normOldPrompt line : Str) : Bool :=
  let stripped := pyStrip line
  if pyStartsWith (chars "**") stripped && pyContains ':' stripped then
    match splitOnce ':' stripped with
    | some (namePart, promptPart) =>
      decide (normWs (pyStrip (stripStars (pyStrip namePart))) = normOldName
        ∧ normWs (pyStrip promptPart) = normOldPrompt)
    | none => false
  else false

/-- The replacement line written by _update_recipe_in_file: the starred new
name, a colon, the new prompt, followed by the slice of the original line
after its stripped content (the original line terminator, for lines without
leading whitespace). -/
def mkReplacement (newName newPrompt line : Str) : Str :=
  chars "**" ++ newName ++ chars "**: " ++ newPrompt ++ line.drop (pyStrip line).length

/-- The line loop of _update_recipe_in_file: matching lines are replaced and
the found flag is set; every other line is appended unchanged. -/
def updateRecipeLinesLoop (nOld pOld newName newPrompt : Str)
    (acc : List Str) (found : Bool) : List Str → List Str × Bool
  | [] => (acc.reverse, found)
  | line :: rest =>
    if recipeLineMatches nOld pOld line then
      updateRecipeLinesLoop nOld pOld newName newPrompt
        (mkReplacement newName newPrompt line :: acc) true rest
    else
      updateRecipeLinesLoop nOld pOld newName newPrompt (line :: acc) found rest

/-- The buffer-building phase of _update_recipe_in_file: normalize the search
keys once, then run the line loop over the whole file. -/
def updateRecipeLines (oldName oldPrompt newName newPrompt : Str)
    (lines : List Str) : List Str × Bool :=
  updateRecipeLinesLoop (normWs oldName) (normWs oldPrompt) newName newPrompt [] false lines

/-- The line loop of _remove_recipe_from_file: matching lines are dropped and
the found flag is set; every other line is kept unchanged. -/
def removeRecipeLinesLoop (nDel pDel : Str) (acc : List Str) (found : Bool) :
    List Str → List Str × Bool
  | [] => (acc.reverse, found)
  | line :: rest =>
    if recipeLineMatches nDel pDel line then
      removeRecipeLinesLoop nDel pDel acc true rest
    else
      removeRecipeLinesLoop nDel pDel (line :: acc) found rest

/-- The buffer-building phase of _remove_recipe_from_file. -/
def removeRecipeLines (nameToDelete promptToDelete : Str) (lines : List Str) :
    List Str × Bool :=
  removeRecipeLinesLoop (normWs nameToDelete) (normWs promptToDelete) [] false lines

/-- Observable file-system side effects of the recipes-file operations. -/
inductive FsEvent where
  | backup : Str → FsEvent
  | writeRecipes : List Str → FsEvent
deriving DecidableEq

/-- _update_recipe_in_file: a missing file returns false with no side effect;
otherwise a timestamped backup is taken first, the updated buffer is built,
and the file is rewritten only when a match was found.  The result is the
file state after the call, the boolean return value, and the event trace. -/
def updateRecipeOp (oldName oldPrompt newName newPrompt : Str)
    (file : Option (List Str)) : Option (List Str) × Bool × List FsEvent :=
  match file with
  | none => (none, false, [])
  | some lines =>
    let r := updateRecipeLines oldName oldPrompt newName newPrompt lines
    if r.2 then
      (some r.1, true, [FsEvent.backup (chars "before_edit"), FsEvent.writeRecipes r.1])
    else
      (some lines, false, [FsEvent.backup (chars "before_edit")])

/-- _remove_recipe_from_file: same shape as the edit operation, with the
backup suffix used for deletions and matching lines dropped. -/
def removeRecipeOp (nameToDelete promptToDelete : Str)
    (file : Option (List Str)) : Option (List Str) × Bool × List FsEvent :=
  match file with
  | none => (none, false, [])
  | some lines =>
    let r := removeRecipeLines nameToDelete promptToDelete lines
    if r.2 then
      (some r.1, true, [FsEvent.backup (chars "before_delete"), FsEvent.writeRecipes r.1])
    else
      (some lines, false, [FsEvent.backup (chars "before_delete")])

/-! ## Recently-used recipes (bounded deque, codude.py) -/

/-- A recipe identity: the (name, prompt-from-file) pair. -/
abbrev Ident := Str × Str

/-- The recently-used collection: the Python collections.deque together with
its maxlen attribute.  Items are kept most-recent-first. -/
structure RecentsDeque where
  items : List Ident
  maxlen : Option Nat
deriving DecidableEq

/-- The maxlen chosen from the configured max_recents value in
validate_and_load_config and load_recipes_and_populate_list: the value itself
when positive, otherwise no bound (unlimited). -/
def mkMaxlen (maxRecents : Nat) : Option Nat :=
  if 0 < maxRecents then some maxRecents else none

/-- Python deque(iterable, maxlen): items are appended one by one, so a bounded
deque keeps the last maxlen elements of the iterable, in order. -/
def dequeOfList (l : List Ident) (ml : Option Nat) : RecentsDeque :=
  match ml with
  | none => ⟨l, none⟩
  | some n => ⟨l.drop (l.length - n), some n⟩

/-- Python deque.appendleft: prepend, discarding from the right end when the
deque is bounded and full. -/
def appendleft (d : RecentsDeque) (x : Ident) : RecentsDeque :=
  match d.maxlen with
  | none => ⟨x :: d.items, none⟩
  | some n => ⟨(x :: d.items).take n, some n⟩

/-- The default max_recents value used by validate_and_load_config when the
key is absent from the configuration file. -/
def defaultMaxRecents : Nat := 5

/-- The reconstruction of the recently-used deque in validate_and_load_config:
the stored list (most-recent-first) is poured into a deque bounded by the
current max_recents when positive, unbounded otherwise. -/
def loadRecents (maxRecents : Nat) (stored : List Ident) : RecentsDeque :=
  dequeOfList stored (mkMaxlen maxRecents)

/-- The recently-used update in execute_recipe_command: remove the identity if
present, prepend it, then rebuild the deque whenever its maxlen differs from
the configured max_recents (Python compares the stored maxlen, possibly None,
with the integer max_recents). -/
def touchRecent (maxRecents : Nat) (d : RecentsDeque) (rid : Ident) : RecentsDeque :=
  let d1 : RecentsDeque :=
    if d.items.contains rid then ⟨d.items.erase rid, d.maxlen⟩ else d
  let d2 := appendleft d1 rid
  if d2.maxlen = some maxRecents then d2 else dequeOfList d2.items (mkMaxlen maxRecents)

/-! ## Favorites (toggle_favorite_status, codude.py) -/

/-- The outcome reported by toggle_favorite_status: removal, addition, or a
user-visible rejection message when the list is full. -/
inductive ToggleResult where
  | removed : ToggleResult
  | added : ToggleResult
  | rejected : ToggleResult
deriving DecidableEq

/-- toggle_favorite_status: a present identity is removed; an absent one is
appended when the list is under the configured limit or the limit is
non-positive (unlimited); otherwise a message box reports that favorites are
full and the list is left untouched. -/
def toggleFavorite (maxFavorites : Int) (favs : List Ident) (rid : Ident) :
    List Ident × ToggleResult :=
  if favs.contains rid then (favs.erase rid, ToggleResult.removed)
  else if (favs.length : Int) < maxFavorites ∨ maxFavorites ≤ 0 then
    (favs ++ [rid], ToggleResult.added)
  else (favs, ToggleResult.rejected)

/-! ## Permanent memory entries (save_memory_content_change, codude.py) -/

/-- One entry of the in-memory history: captured text, prompt, response
content, and the optional backing-file name. -/
structure MemEntry where
  captured : Str
  prompt : Str
  response : Str
  filename : Option Str
deriving DecidableEq

/-- Python truthiness of the stored filename (None and the empty string are
falsy). -/
def memFilenameTruthy : Option Str → Bool
  | none => false
  | some s => s ≠ []

/-- The full text written to the backing memory file by
save_memory_content_change. -/
def diskContent (captured prompt newContent : Str) : Str :=
  chars "Captured Text:\n" ++ captured ++ chars "\n\nPrompt:\n" ++ prompt
    ++ chars "\n\nLLM Response:\n" ++ newContent

/-- save_memory_content_change: an out-of-range index is ignored; when the new
content differs from the stored response the entry is replaced in place and,
if permanent memory is active with a memory directory and a truthy filename,
the backing file is rewritten.  The result is the memory list after the call
and the optional (filename, content) file write. -/
def saveMemoryContentChange (permanentMemory hasMemoryDir : Bool)
    (memory : List MemEntry) (idx : Nat) (newContent : Str) :
    List MemEntry × Option (Str × Str) :=
  match memory.get? idx with
  | none => (memory, none)
  | some entry =>
    if newContent ≠ entry.response then
      let mem2 := memory.set idx
        { captured := entry.captured, prompt := entry.prompt,
          response := newContent, filename := entry.filename }
      if permanentMemory && hasMemoryDir && memFilenameTruthy entry.filename then
        (mem2, some (entry.filename.getD [],
          diskContent entry.captured entry.prompt newContent))
      else (mem2, none)
    else (memory, none)

/-! ## LM Studio Native API dispatch (LLMRequestThread.run, llm_client.py) -/

/-- Python s.split(sep) for a single-character separator: all parts, empty
parts kept. -/
def splitSep (sep : Char) : Str → List Str
  | [] => [[]]
  | c :: rest =>
    let r := splitSep sep rest
    if c = sep then [] :: r
    else
      match r with
      | t :: ts => (c :: t) :: ts
      | [] => [[c]]

/-- The payload built for the LM Studio Native API provider: model name, the
input text actually sent, and the optional list of plugin ids attached as the
integrations field. -/
structure LMStudioPayload where
  model : Str
  input : Str
  integrations : Option (List Str)
deriving DecidableEq

/-- The user content assembled in LLMRequestThread.run: the prompt followed by
the captured text when the latter is non-blank, the prompt alone otherwise. -/
def mkUserContent (prompt text : Str) : Str :=
  if pyStrip text ≠ [] then prompt ++ chars "\n\nText: " ++ text else prompt

/-- The keyword check at the top of LLMRequestThread.run: when the user
content begins with the reserved USETOOLS: prefix, the prefix (nine
characters) is removed and any following whitespace stripped from the left,
and the flag recording the presence of the keyword is set. -/
def stripUsetoolsKeyword (userContent : Str) : Str × Bool :=
  if pyStartsWith (chars "USETOOLS:") userContent then
    (lstripWith pyIsSpace (userContent.drop 9), true)
  else (userContent, false)

/-- The LM Studio Native API branch of LLMRequestThread.run: tools are in play
only when the configured plugin-id string is truthy and non-blank, further
gated by the keyword flag when require_usetools is set; the integrations
field is attached only when the comma-separated plugin list is non-empty
after stripping. -/
def lmStudioPayload (modelName mcpPluginIds : Str) (requireUsetools : Bool)
    (prompt text : Str) : LMStudioPayload :=
  let uc := stripUsetoolsKeyword (mkUserContent prompt text)
  let shouldUseTools0 := decide (mcpPluginIds ≠ [] ∧ pyStrip mcpPluginIds ≠ [])
  let shouldUseTools :=
    if requireUsetools then shouldUseTools0 && uc.2 else shouldUseTools0
  let integrations : Option (List Str) :=
    if shouldUseTools then
      let pluginList := ((splitSep ',' mcpPluginIds).map pyStrip).filter (fun p => p ≠ [])
      if pluginList ≠ [] then some pluginList else none
    else none
  ⟨modelName, uc.1, integrations⟩

/-! ## LLM response extraction (llm_client.py and codude.py) -/

/-- JSON values, as decoded from a response body. -/
inductive JVal where
  | jnull : JVal
  | jbool : Bool → JVal
  | jnum : Int → JVal
  | jstr : Str → JVal
  | jarr : List JVal → JVal
  | jobj : List (Str × JVal) → JVal

/-- Lookup of a key in a decoded JSON object field list. -/
def jlookup (fields : List (Str × JVal)) (k : Str) : Option JVal :=
  match fields with
  | [] => none
  | (k2, v) :: rest => if k2 = k then some v else jlookup rest k

/-- Python dict.get: none on a missing key or a non-object value. -/
def JVal.get (j : JVal) (k : Str) : Option JVal :=
  match j with
  | JVal.jobj fs => jlookup fs k
  | _ => none

/-- Discrimination of object values (Python isinstance dict). -/
def JVal.isObj : JVal → Bool
  | JVal.jobj _ => true
  | _ => false

/-- Python truthiness of an optional decoded JSON value. -/
def jtruthy : Option JVal → Bool
  | none => false
  | some JVal.jnull => false
  | some (JVal.jbool b) => b
  | some (JVal.jnum n) => decide (n ≠ 0)
  | some (JVal.jstr s) => decide (s ≠ [])
  | some (JVal.jarr xs) => !xs.isEmpty
  | some (JVal.jobj fs) => !fs.isEmpty

/-- Python value1 or value2 over optional decoded values: the first operand
when truthy, the second otherwise. -/
def pyOr (a b : Option JVal) : Option JVal := if jtruthy a then a else b

/-- The per-item test of the reversed output scan in the LM Studio branch:
the item is an object whose type field equals the message string and whose
content field is truthy. -/
def isMessageTyped (item : JVal) : Bool :=
  item.isObj
    && (match item.get (chars "type") with
        | some (JVal.jstr s) => decide (s = chars "message")
        | _ => false)
    && jtruthy (item.get (chars "content"))

/-- Scan a reversed output list for the first item passing the message test,
returning its content field. -/
def findMessageContentRev : List JVal → Option JVal
  | [] => none
  | item :: rest =>
    if isMessageTyped item then item.get (chars "content")
    else findMessageContentRev rest

/-- The reversed scan of the output array in the LM Studio branch: the last
entry of type message with truthy content. -/
def findMessageContent (output : List JVal) : Option JVal :=
  findMessageContentRev output.reverse

/-- The OpenAI-style extraction chain shared verbatim by the thread in
codude.py and the non-LM-Studio branch of llm_client.py: the first choice
message content when the structure matches, otherwise the top-level text then
response string fields. -/
def openAIStyleExtract (result : JVal) : Option JVal :=
  let c1 : Option JVal :=
    match result.get (chars "choices") with
    | some (JVal.jarr (first :: _)) =>
      if first.isObj then
        match first.get (chars "message") with
        | some m => if m.isObj then m.get (chars "content") else none
        | none => none
      else none
    | _ => none
  match c1 with
  | some c => some c
  | none =>
    match result.get (chars "text") with
    | some (JVal.jstr s) => some (JVal.jstr s)
    | _ =>
      match result.get (chars "response") with
      | some (JVal.jstr s) => some (JVal.jstr s)
      | _ => none

/-- The content extraction of LLMRequestThread.run in llm_client.py: the LM
Studio Native API provider scans the vendor-native output array and then the
top-level content, text and response fields through Python or-chaining; every
other provider uses the OpenAI-style chain. -/
def extractContentClient (provider : Str) (result : JVal) : Option JVal :=
  if provider = chars "LM Studio Native API" then
    let c1 : Option JVal :=
      match result.get (chars "output") with
      | some (JVal.jarr output) =>
        if !output.isEmpty then
          match findMessageContent output with
          | some c => some c
          | none =>
            match output.head? with
            | some first => if first.isObj then first.get (chars "content") else none
            | none => none
        else none
      | _ => none
    match c1 with
    | some c => some c
    | none =>
      pyOr (pyOr (result.get (chars "content")) (result.get (chars "text")))
        (result.get (chars "response"))
  else openAIStyleExtract result

/-- The content extraction of the LLMRequestThread defined in codude.py (the
thread the application instantiates): the OpenAI-style chain with no provider
branching. -/
def extractContentMain (result : JVal) : Option JVal := openAIStyleExtract result

/-! ## Helper lemmas -/

/-- Mapping a conditional rewrite over a list whose elements all fail the
condition is the identity. -/
theorem map_ite_id_of_all_false {α : Type} (p : α → Bool) (f : α → α) :
    ∀ (ls : List α), (∀ l ∈ ls, p l = false) →
      ls.map (fun l => if p l then f l else l) = ls := by
  intro ls
  induction ls with
  | nil => intro _; rfl
  | cons a t ih =>
    intro h
    have ha : p a = false := h a (List.mem_cons_self a t)
    have ht := ih (fun l hl => h l (List.mem_cons_of_mem a hl))
    simp [ha, ht]

/-- A list none of whose elements satisfies the predicate has a false any. -/
theorem any_eq_false_of_all_false {α : Type} (p : α → Bool) :
    ∀ (ls : List α), (∀ l ∈ ls, p l = false) → ls.any p = false := by
  intro ls
  induction ls with
  | nil => intro _; rfl
  | cons a t ih =>
    intro h
    have ha : p a = false := h a (List.mem_cons_self a t)
    have ht := ih (fun l hl => h l (List.mem_cons_of_mem a hl))
    simp [ha, ht]

/-- Characterization of the edit loop of _update_recipe_in_file: the produced
buffer is the pointwise conditional replacement of the input lines appended to
the reversed accumulator, and the found flag is the disjunction of the
incoming flag with the existence of a matching line. -/
theorem updateRecipeLinesLoop_eq (nOld pOld newName newPrompt : Str)
    (ls : List Str) : ∀ (acc : List Str) (found : Bool),
    updateRecipeLinesLoop nOld pOld newName newPrompt acc found ls
      = (acc.reverse ++ ls.map (fun l =>
            if recipeLineMatches nOld pOld l then mkReplacement newName newPrompt l else l),
         found || ls.any (fun l => recipeLineMatches nOld pOld l)) := by
  induction ls with
  | nil => intro acc found; simp [updateRecipeLinesLoop]
  | cons l rest ih =>
    intro acc found
    by_cases h : recipeLineMatches nOld pOld l = true
    · simp [updateRecipeLinesLoop, h, ih]
    · simp only [Bool.not_eq_true] at h
      simp [updateRecipeLinesLoop, h, ih]

/-- Characterization of the deletion loop of _remove_recipe_from_file: the
produced buffer keeps exactly the non-matching lines, and the found flag is
the disjunction of the incoming flag with the existence of a matching line. -/
theorem removeRecipeLinesLoop_eq (nDel pDel : Str) (ls : List Str) :
    ∀ (acc : List Str) (found : Bool),
    removeRecipeLinesLoop nDel pDel acc found ls
      = (acc.reverse ++ ls.filter (fun l => !recipeLineMatches nDel pDel l),
         found || ls.any (fun l => recipeLineMatches nDel pDel l)) := by
  induction ls with
  | nil => intro acc found; simp [removeRecipeLinesLoop]
  | cons l rest ih =>
    intro acc found
    by_cases h : recipeLineMatches nDel pDel l = true
    · simp [removeRecipeLinesLoop, h, ih, List.filter]
    · simp only [Bool.not_eq_true] at h
      simp [removeRecipeLinesLoop, h, ih, List.filter]

/-- A line whose content contains the separator always splits into two parts,
so the tuple unpacking in the parsing and editing code never raises. -/
theorem splitOnce_isSome_of_contains (sep : Char) :
    ∀ (s : Str), pyContains sep s = true → (splitOnce sep s).isSome = true := by
  intro s
  induction s with
  | nil => intro h; simp [pyContains] at h
  | cons c rest ih =>
    intro h
    by_cases hc : c = sep
    · simp [splitOnce, hc]
    · simp only [pyContains, if_neg hc] at h
      have hrest := ih h
      simp only [splitOnce, if_neg hc]
      cases hs : splitOnce sep rest with
      | none => rw [hs] at hrest; simp at hrest
      | some ab => simp

/-- Every node produced by the parsing loop is well formed: group nodes are
unconstrained and recipe nodes carry non-empty name and prompt, since the
code skips every line where either part is empty. -/
theorem parseRecipeLines_wellFormed :
    ∀ (pairs : List (Nat × Str)) (g : Option Str) (node : RNode),
      node ∈ parseRecipeLines pairs g → rnodeWellFormed node := by
  intro pairs
  induction pairs with
  | nil => intro g node h; simp [parseRecipeLines] at h
  | cons p rest ih =>
    intro g node h
    obtain ⟨lineNum, lineContent⟩ := p
    simp only [parseRecipeLines] at h
    split at h
    · exact ih _ _ h
    · split at h
      · rcases List.mem_cons.mp h with h1 | h2
        · subst h1; trivial
        · exact ih _ _ h2
      · split at h
        · split at h
          · split at h
            · rcases List.mem_cons.mp h with h1 | h2
              · subst h1
                rename_i hcond
                exact hcond
              · exact ih _ _ h2
            · exact ih _ _ h
          · exact ih _ _ h
        · exact ih _ _ h

/-- An appendleft on a bounded deque keeps the length within the bound. -/
theorem appendleft_length_le_of_maxlen (d : RecentsDeque) (x : Ident) (n : Nat)
    (h : (appendleft d x).maxlen = some n) : (appendleft d x).items.length ≤ n := by
  cases hm : d.maxlen with
  | none => simp [appendleft, hm] at h
  | some m =>
    simp only [appendleft, hm] at h ⊢
    obtain rfl : m = n := by simpa using h
    simp [List.length_take]

/-- Pouring a list into a bounded deque keeps the length within the bound. -/
theorem dequeOfList_length_le (l : List Ident) (n : Nat) :
    (dequeOfList l (some n)).items.length ≤ n := by
  simp only [dequeOfList, List.length_drop]
  omega

/-- One recently-used touch with a positive configured maximum always leaves
the deque within the bound, whatever its previous state. -/
theorem touchRecent_length_le (N : Nat) (hN : 0 < N) (d : RecentsDeque) (rid : Ident) :
    (touchRecent N d rid).items.length ≤ N := by
  have hml : mkMaxlen N = some N := by simp [mkMaxlen, hN]
  simp only [touchRecent, hml]
  generalize (if d.items.contains rid then (⟨d.items.erase rid, d.maxlen⟩ : RecentsDeque) else d) = d1
  by_cases h2 : (appendleft d1 rid).maxlen = some N
  · rw [if_pos h2]
    exact appendleft_length_le_of_maxlen _ _ _ h2
  · rw [if_neg h2]
    exact dequeOfList_length_le _ _

/-- Reconstructing the recently-used deque from stored state with a positive
configured maximum keeps the length within the bound. -/
theorem loadRecents_length_le (N : Nat) (hN : 0 < N) (stored : List Ident) :
    (loadRecents N stored).items.length ≤ N := by
  have hml : mkMaxlen N = some N := by simp [mkMaxlen, hN]
  simp only [loadRecents, hml]
  exact dequeOfList_length_le _ _

/-! ## Claim theorems -/

/-- C1, counterexample: in a file with two identical recipe lines both
matching the old identity, the edit operation rewrites both lines, so a line
other than the first matching one is not byte-identical after the edit. -/
theorem c1_counterexample :
    (updateRecipeLines (chars "A") (chars "p") (chars "B") (chars "q")
        [chars "**A**: p\n", chars "**A**: p\n"]).1
      = [chars "**B**: q\n", chars "**B**: q\n"]
    ∧ chars "**B**: q\n" ≠ chars "**A**: p\n" := by
  constructor
  · rfl
  · decide

/-- C1 (amended): the edit operation replaces every line whose parsed
(name, prompt) pair equals the old identity under whitespace-normalized
comparison — not only the first — writing the starred new name and prompt
followed by the original line's suffix after its stripped content, and leaves
every non-matching line byte-identical; the returned flag records whether any
line matched. -/
theorem c1_update_replaces_every_matching_line
    (oldName oldPrompt newName newPrompt : Str) (lines : List Str) :
    (updateRecipeLines oldName oldPrompt newName newPrompt lines).1
      = lines.map (fun l =>
          if recipeLineMatches (normWs oldName) (normWs oldPrompt) l
          then mkReplacement newName newPrompt l else l)
    ∧ (updateRecipeLines oldName oldPrompt newName newPrompt lines).2
      = lines.any (fun l => recipeLineMatches (normWs oldName) (normWs oldPrompt) l) := by
  simp [updateRecipeLines, updateRecipeLinesLoop_eq]

/-- C7: when no line of the recipes file matches the old identity under
whitespace-normalized comparison, the edit operation returns false, the file
content is unchanged, and the only side effect is the pre-search backup (no
rewrite happens). -/
theorem c7_no_match_leaves_file_unchanged
    (oldName oldPrompt newName newPrompt : Str) (lines : List Str)
    (h : ∀ l ∈ lines, recipeLineMatches (normWs oldName) (normWs oldPrompt) l = false) :
    updateRecipeOp oldName oldPrompt newName newPrompt (some lines)
      = (some lines, false, [FsEvent.backup (chars "before_edit")]) := by
  simp [updateRecipeOp, updateRecipeLines, updateRecipeLinesLoop_eq,
    any_eq_false_of_all_false _ _ h]

/-- C7 witness: editing a recipe absent from a concrete two-line file returns
false and leaves the file unchanged. -/
theorem c7_witness :
    updateRecipeOp (chars "B") (chars "q") (chars "C") (chars "r")
        (some [chars "# Group\n", chars "**A**: p\n"])
      = (some [chars "# Group\n", chars "**A**: p\n"], false,
         [FsEvent.backup (chars "before_edit")]) :=
  c7_no_match_leaves_file_unchanged (chars "B") (chars "q") (chars "C") (chars "r")
    [chars "# Group\n", chars "**A**: p\n"] (by decide)

/-- C10: on an existing recipes file, both the edit and the delete operation
emit the timestamped backup as the first file-system event — before the match
search and regardless of whether any line matches — so even a call returning
false leaves a fresh backup behind. -/
theorem c10_backup_taken_before_search
    (oldName oldPrompt newName newPrompt nameToDelete promptToDelete : Str)
    (lines : List Str) :
    (updateRecipeOp oldName oldPrompt newName newPrompt (some lines)).2.2.head?
        = some (FsEvent.backup (chars "before_edit"))
    ∧ (removeRecipeOp nameToDelete promptToDelete (some lines)).2.2.head?
        = some (FsEvent.backup (chars "before_delete")) := by
  constructor
  · simp only [updateRecipeOp]
    split <;> rfl
  · simp only [removeRecipeOp]
    split <;> rfl

/-- C6: parsing the recipes file is total and failure free — a missing file or
a read error yields the empty structure, every produced recipe node has a
non-empty name and prompt (malformed lines are skipped, never raised), and
the guarded tuple unpacking always succeeds because a line passing the guard
always splits at its colon. -/
theorem c6_parse_is_total (file : Option (Except Str (List Str))) :
    (∀ node ∈ parseRecipesFileToStructure file, rnodeWellFormed node)
    ∧ (∀ line : Str, pyContains ':' line = true → (splitOnce ':' line).isSome = true)
    ∧ parseRecipesFileToStructure none = []
    ∧ (∀ e, parseRecipesFileToStructure (some (Except.error e)) = []) := by
  refine ⟨?_, ?_, rfl, fun _ => rfl⟩
  · intro node h
    match file with
    | none => simp [parseRecipesFileToStructure] at h
    | some (Except.error _) => simp [parseRecipesFileToStructure] at h
    | some (Except.ok lines) => exact parseRecipeLines_wellFormed _ _ _ h
  · intro line h
    exact splitOnce_isSome_of_contains ':' line h

/-- C6 witness: parsing a concrete one-line file yields well-formed nodes and
a concrete guarded line splits. -/
theorem c6_witness :
    (splitOnce ':' (chars "**A**: p")).isSome = true :=
  (c6_parse_is_total none).2.1 (chars "**A**: p") (by decide)

/-- Six distinct recipe identities used to exhibit unbounded growth of the
recently-used list when max_recents is configured as zero. -/
def c2ExTouches : List Ident :=
  [(chars "r1", chars "p"), (chars "r2", chars "p"), (chars "r3", chars "p"),
   (chars "r4", chars "p"), (chars "r5", chars "p"), (chars "r6", chars "p")]

/-- C2, counterexample: with max_recents configured as 0 the deque is built
with no bound, so six touches starting from an empty list leave six entries —
more than the default cap of five — showing that 0 is treated as unlimited,
not as a default cap. -/
theorem c2_counterexample :
    (c2ExTouches.foldl (touchRecent 0) (loadRecents 0 [])).items.length = 6
    ∧ defaultMaxRecents < 6 := by
  constructor
  · rfl
  · decide

/-- C2 (amended): for every positive configured maximum N, every stored
starting state and every sequence of recipe executions, the recently-used
list never exceeds N entries; a configured value of 0, however, removes the
bound entirely (maxlen None), it is not a default cap. -/
theorem c2_capacity_invariant_for_positive_max (N : Nat) (hN : 0 < N)
    (stored touches : List Ident) :
    (touches.foldl (touchRecent N) (loadRecents N stored)).items.length ≤ N := by
  have aux : ∀ (ts : List Ident) (d : RecentsDeque), d.items.length ≤ N →
      (ts.foldl (touchRecent N) d).items.length ≤ N := by
    intro ts
    induction ts with
    | nil => intro d h; simpa using h
    | cons t rest ih =>
      intro d _
      simpa using ih (touchRecent N d t) (touchRecent_length_le N hN d t)
  exact aux touches _ (loadRecents_length_le N hN stored)

/-- C2 witness: with maximum 2, a stored list of three identities and one
further touch, the recently-used list stays within two entries. -/
theorem c2_witness :
    (([(chars "x", chars "p")] : List Ident).foldl (touchRecent 2)
        (loadRecents 2 [(chars "a", chars "p"), (chars "b", chars "p"),
          (chars "c", chars "p")])).items.length ≤ 2 :=
  c2_capacity_invariant_for_positive_max 2 (by decide) _ _

/-- C4, counterexample: a stored most-recent-first list of three identities
loaded under capacity 2 keeps the two oldest entries, not the two most-recent
ones the claim promises. -/
theorem c4_counterexample :
    (loadRecents 2 [(chars "a", chars "pa"), (chars "b", chars "pb"),
        (chars "c", chars "pc")]).items
      = [(chars "b", chars "pb"), (chars "c", chars "pc")]
    ∧ (loadRecents 2 [(chars "a", chars "pa"), (chars "b", chars "pb"),
        (chars "c", chars "pc")]).items
      ≠ [(chars "a", chars "pa"), (chars "b", chars "pb")] := by
  constructor
  · rfl
  · decide

/-- C4 (amended): when the stored recently-used list is longer than the
positive capacity N, the reconstructed bounded list has exactly N entries and
is the tail of the stored list — the N oldest identities under the
most-recent-first ordering — with the most-recent excess entries silently
dropped; the load never rejects the stored state. -/
theorem c4_load_keeps_tail_of_stored (N : Nat) (stored : List Ident)
    (hN : 0 < N) (hlong : N < stored.length) :
    (loadRecents N stored).items.length = N
    ∧ stored.take (stored.length - N) ++ (loadRecents N stored).items = stored := by
  have hml : mkMaxlen N = some N := by simp [mkMaxlen, hN]
  constructor
  · simp only [loadRecents, hml, dequeOfList, List.length_drop]
    omega
  · simp only [loadRecents, hml, dequeOfList]
    exact List.take_append_drop _ _

/-- C4 witness: loading a stored list of two identities under capacity 1
keeps exactly the last stored entry. -/
theorem c4_witness :
    (loadRecents 1 [(chars "a", chars "pa"), (chars "b", chars "pb")]).items.length = 1
    ∧ ([(chars "a", chars "pa"), (chars "b", chars "pb")] : List Ident).take
          (([(chars "a", chars "pa"), (chars "b", chars "pb")] : List Ident).length - 1)
        ++ (loadRecents 1 [(chars "a", chars "pa"), (chars "b", chars "pb")]).items
      = [(chars "a", chars "pa"), (chars "b", chars "pb")] :=
  c4_load_keeps_tail_of_stored 1 _ (by decide) (by decide)

/-- C8: with the favorites list at its positive configured capacity M,
toggling an absent identity leaves the list unchanged and reports a
rejection, while toggling a present identity removes its first occurrence. -/
theorem c8_favorites_full_rejects (M : Int) (favs : List Ident) (rid : Ident)
    (hM : 0 < M) (hcap : (favs.length : Int) = M) :
    (favs.contains rid = false → toggleFavorite M favs rid = (favs, ToggleResult.rejected))
    ∧ (favs.contains rid = true →
        toggleFavorite M favs rid = (favs.erase rid, ToggleResult.removed)) := by
  constructor
  · intro habs
    have h1 : ¬ (favs.contains rid = true) := by
      intro hcon
      rw [habs] at hcon
      exact Bool.false_ne_true hcon
    have hcond : ¬(((favs.length : Int) < M) ∨ M ≤ 0) := by omega
    unfold toggleFavorite
    rw [if_neg h1, if_neg hcond]
  · intro hpres
    unfold toggleFavorite
    rw [if_pos hpres]

/-- C8 witness: a single-element favorites list at capacity 1 rejects an
absent identity unchanged. -/
theorem c8_witness :
    toggleFavorite 1 [(chars "a", chars "pa")] (chars "b", chars "pb")
      = ([(chars "a", chars "pa")], ToggleResult.rejected) :=
  (c8_favorites_full_rejects 1 [(chars "a", chars "pa")] (chars "b", chars "pb")
    (by decide) (by decide)).1 (by decide)

/-- C9: updating a memory entry with content equal to its stored response is
a no-op — the memory list is returned unchanged and no backing-file write is
produced; the entry and file are touched only when the content differs. -/
theorem c9_memory_noop_when_unchanged (pm hd : Bool) (memory : List MemEntry)
    (idx : Nat) (newContent : Str) (e : MemEntry)
    (hidx : memory.get? idx = some e) (heq : e.response = newContent) :
    saveMemoryContentChange pm hd memory idx newContent = (memory, none) := by
  simp only [saveMemoryContentChange]
  rw [hidx]
  simp [heq]

/-- C9 witness: rewriting a concrete one-entry memory with its own stored
response changes nothing and writes no file. -/
theorem c9_witness :
    saveMemoryContentChange true true
        [⟨chars "cap", chars "pr", chars "resp", some (chars "f.md")⟩] 0 (chars "resp")
      = ([⟨chars "cap", chars "pr", chars "resp", some (chars "f.md")⟩], none) :=
  c9_memory_noop_when_unchanged true true
    [⟨chars "cap", chars "pr", chars "resp", some (chars "f.md")⟩] 0 (chars "resp")
    ⟨chars "cap", chars "pr", chars "resp", some (chars "f.md")⟩ rfl rfl

/-- C3: in an LM Studio Native API dispatch, the integrations field can be
attached only when the configured plugin-id string is non-blank and — when
the require_usetools policy is enabled — the outgoing user content begins
with the literal USETOOLS: prefix; and whenever the content begins with that
prefix, the text actually sent is the content with the prefix removed and
left-stripped. -/
theorem c3_integrations_gating (modelName mcpPluginIds : Str)
    (requireUsetools : Bool) (prompt text : Str) :
    ((lmStudioPayload modelName mcpPluginIds requireUsetools prompt text).integrations.isSome
        = true →
      pyStrip mcpPluginIds ≠ []
      ∧ (requireUsetools = false
         ∨ pyStartsWith (chars "USETOOLS:") (mkUserContent prompt text) = true))
    ∧ (pyStartsWith (chars "USETOOLS:") (mkUserContent prompt text) = true →
        (lmStudioPayload modelName mcpPluginIds requireUsetools prompt text).input
          = lstripWith pyIsSpace ((mkUserContent prompt text).drop 9)) := by
  have huc2 : (stripUsetoolsKeyword (mkUserContent prompt text)).2
      = pyStartsWith (chars "USETOOLS:") (mkUserContent prompt text) := by
    by_cases hp : pyStartsWith (chars "USETOOLS:") (mkUserContent prompt text) = true
    · simp [stripUsetoolsKeyword, hp]
    · simp only [Bool.not_eq_true] at hp
      simp [stripUsetoolsKeyword, hp]
  constructor
  · intro h
    cases hru : requireUsetools with
    | false =>
      by_cases hs : mcpPluginIds ≠ [] ∧ pyStrip mcpPluginIds ≠ []
      · exact ⟨hs.2, Or.inl rfl⟩
      · exfalso
        simp only [lmStudioPayload, hru] at h
        simp [decide_eq_false hs] at h
    | true =>
      by_cases hs : mcpPluginIds ≠ [] ∧ pyStrip mcpPluginIds ≠ []
      · by_cases hu : (stripUsetoolsKeyword (mkUserContent prompt text)).2 = true
        · refine ⟨hs.2, Or.inr ?_⟩
          rw [← huc2]
          exact hu
        · exfalso
          simp only [Bool.not_eq_true] at hu
          simp only [lmStudioPayload, hru] at h
          simp [hu] at h
      · exfalso
        simp only [lmStudioPayload, hru] at h
        simp [decide_eq_false hs] at h
  · intro hp
    simp only [lmStudioPayload]
    simp [stripUsetoolsKeyword, hp]

/-- C3 witness: with a configured plugin id, require_usetools enabled and a
prompt beginning with the keyword, the payload satisfies both gating
conclusions at a concrete input. -/
theorem c3_witness :
    (pyStrip (chars "web") ≠ []
      ∧ (true = false
         ∨ pyStartsWith (chars "USETOOLS:")
             (mkUserContent (chars "USETOOLS: hi") (chars "")) = true))
    ∧ (lmStudioPayload (chars "m") (chars "web") true (chars "USETOOLS: hi")
        (chars "")).input
      = lstripWith pyIsSpace ((mkUserContent (chars "USETOOLS: hi") (chars "")).drop 9) :=
  ⟨(c3_integrations_gating (chars "m") (chars "web") true (chars "USETOOLS: hi")
      (chars "")).1 (by decide),
   (c3_integrations_gating (chars "m") (chars "web") true (chars "USETOOLS: hi")
      (chars "")).2 (by decide)⟩

/-- The message object of the response fixture used for the extraction
claims: its content field holds the string X. -/
def c5FixtureMsg : JVal := JVal.jobj [(chars "content", JVal.jstr (chars "X"))]

/-- The first (and only) choice of the response fixture. -/
def c5FixtureChoice : JVal := JVal.jobj [(chars "message", c5FixtureMsg)]

/-- A 200 response body holding both an OpenAI-style first-choice message
content X and a top-level text field Y. -/
def c5Fixture : JVal :=
  JVal.jobj
    [(chars "choices", JVal.jarr [c5FixtureChoice]),
     (chars "text", JVal.jstr (chars "Y"))]

/-- C5, counterexample: under the LM Studio Native API provider the choices
path of llm_client.py is never consulted, so the fixture holding both
choices-content X and top-level text Y extracts to Y, not X. -/
theorem c5_counterexample :
    extractContentClient (chars "LM Studio Native API") c5Fixture
      = some (JVal.jstr (chars "Y"))
    ∧ chars "Y" ≠ chars "X" := by
  constructor
  · rfl
  · decide

/-- C5 (amended): for every provider other than LM Studio Native API the
extraction of llm_client.py — and the extraction of the thread defined in
codude.py, which the application actually runs, for every provider — returns
the first-choice message content X whenever the choices structure is present,
regardless of any top-level text field: the OpenAI-style path is tried before
the top-level fallbacks. -/
theorem c5_choices_priority_for_openai_style (provider : Str) (result : JVal)
    (first msg : JVal) (rest : List JVal) (X : Str)
    (hp : provider ≠ chars "LM Studio Native API")
    (hc : result.get (chars "choices") = some (JVal.jarr (first :: rest)))
    (hf : first.isObj = true)
    (hm : first.get (chars "message") = some msg)
    (hmo : msg.isObj = true)
    (hx : msg.get (chars "content") = some (JVal.jstr X)) :
    extractContentClient provider result = some (JVal.jstr X)
    ∧ extractContentMain result = some (JVal.jstr X) := by
  have hopen : openAIStyleExtract result = some (JVal.jstr X) := by
    simp [openAIStyleExtract, hc, hf, hm, hmo, hx]
  refine ⟨?_, ?_⟩
  · simp [extractContentClient, hp, hopen]
  · simpa [extractContentMain] using hopen

/-- C5 witness: under the Local OpenAI-Compatible provider, and in the main
thread of codude.py, the fixture with both fields extracts to X. -/
theorem c5_witness :
    extractContentClient (chars "Local OpenAI-Compatible") c5Fixture
        = some (JVal.jstr (chars "X"))
    ∧ extractContentMain c5Fixture = some (JVal.jstr (chars "X")) :=
  c5_choices_priority_for_openai_style (chars "Local OpenAI-Compatible") c5Fixture
    c5FixtureChoice c5FixtureMsg [] (chars "X") (by decide) rfl rfl rfl rfl rfl

end CoDude
